import Mathlib

/-
Verification of the Action Cache server of this repository
(server/remote_cache/action_cache_server/action_cache_server.go).

The Go code is shallowly embedded below. Protobuf messages become Lean
structures; Go proto getters (which return zero values on nil pointers)
become explicit getter functions; the external DigestCache collaborator
(only its interface appears in the source) is modelled from the spec as a
key/value association list; protobuf wire encoding is out of the spec's
scope, so serialization is modelled as an injective constructor with
deserialization as its partial inverse. Every store interaction is logged
in an explicit event trace so that batching and ordering properties of the
existence validator can be stated.
-/

set_option autoImplicit false

namespace AC

/-- Digest message: content address, hash plus size in bytes. -/
structure Digest where
  hash : String
  sizeBytes : Int
deriving DecidableEq, Repr

/-- Zero value of a Digest, what a Go proto getter returns on a nil field. -/
def defaultDigest : Digest := { hash := "", sizeBytes := 0 }

/-- FileNode entry of a Directory; the digest field is a nullable pointer in Go. -/
structure FileNode where
  name : String
  digest : Option Digest
deriving DecidableEq, Repr

/-- Go getter f.GetDigest for a directory file entry. -/
def FileNode.getDigest (f : FileNode) : Digest := f.digest.getD defaultDigest

/-- Directory message: the file entries relevant to existence validation. -/
structure Directory where
  files : List FileNode
deriving DecidableEq, Repr

/-- Tree message: a root directory (nullable in Go) plus child directories. -/
structure Tree where
  root : Option Directory
  children : List Directory
deriving DecidableEq, Repr

/-- Go getter dir.GetFiles, which yields the empty list on a nil Directory. -/
def dirGetFiles : Option Directory → List FileNode
  | none => []
  | some dir => dir.files

/-- OutputFile of an ActionResult: path, nullable digest, inlined contents bytes. -/
structure OutputFile where
  path : String
  digest : Option Digest
  contents : List Nat
deriving DecidableEq, Repr

/-- Go getter f.GetDigest for an output file. -/
def OutputFile.getDigest (f : OutputFile) : Digest := f.digest.getD defaultDigest

/-- OutputDirectory of an ActionResult: path plus nullable tree digest. -/
structure OutputDirectory where
  path : String
  treeDigest : Option Digest
deriving DecidableEq, Repr

/-- Go getter d.GetTreeDigest. -/
def OutputDirectory.getTreeDigest (d : OutputDirectory) : Digest :=
  d.treeDigest.getD defaultDigest

/-- ExecutedActionMetadata: the worker identifier plus representative further
fields (timestamps in the proto), needed to state what the write path discards. -/
structure ExecutedActionMetadata where
  worker : String
  queuedTimestamp : Option Int
  workerStartTimestamp : Option Int
deriving DecidableEq, Repr

/-- ActionResult message: outputs plus execution metadata (nullable in Go). -/
structure ActionResult where
  outputFiles : List OutputFile
  outputDirectories : List OutputDirectory
  exitCode : Int
  executionMetadata : Option ExecutedActionMetadata
deriving DecidableEq, Repr

/-- Errors surfaced by the server, by gRPC status class. The storeMiss
constructor stands for the raw error the blob store returns on a failed Get,
which the server either wraps or propagates. -/
inductive Err where
  | invalidArgument : String → Err
  | notFound : String → Err
  | internal : String → Err
  | storeMiss : String → Err
deriving DecidableEq, Repr

/-- Message text carried by an error, the analogue of err.Error() in Go. -/
def Err.msg : Err → String
  | .invalidArgument m => m
  | .notFound m => m
  | .internal m => m
  | .storeMiss m => m

/-- Rendering of a digest inside error messages. -/
def digestStr (d : Digest) : String := d.hash ++ "/" ++ toString d.sizeBytes

/-- Stored blob. Modelled from the spec: protobuf wire encoding is out of
scope, so a stored value is either opaque bytes or the injective encoding of
an ActionResult or of a Tree, and decoding is the partial inverse. -/
inductive Blob where
  | raw : List Nat → Blob
  | encActionResult : ActionResult → Blob
  | encTree : Tree → Blob
deriving DecidableEq, Repr

/-- proto.Marshal on an ActionResult. -/
def marshalActionResult (r : ActionResult) : Blob := Blob.encActionResult r

/-- Modelled from the spec: proto.Unmarshal into an ActionResult; a
deserialization failure is classified as an internal error per the spec's
error taxonomy (the proto and status packages are not part of the source). -/
def unmarshalActionResult : Blob → Except Err ActionResult
  | Blob.encActionResult r => .ok r
  | _ => .error (.internal "failed to unmarshal ActionResult")

/-- Modelled from the spec: proto.Unmarshal into a Tree. -/
def unmarshalTree : Blob → Except Err Tree
  | Blob.encTree t => .ok t
  | _ => .error (.internal "failed to unmarshal Tree")

/-- Character class check used by digest validation: lowercase hex. -/
def isHexChar (ch : Char) : Bool :=
  ch.isDigit || (Nat.ble 97 ch.toNat && Nat.ble ch.toNat 102)

/-- Hash format check: non-empty, correct length and charset for SHA-256. -/
def validHashString (h : String) : Bool :=
  Nat.beq h.toList.length 64 && h.toList.all isHexChar

/-- Modelled from the spec: digest.Validate (the digest package is not part
of the source). Rejects digests whose hash is empty, of the wrong length or
of the wrong charset for the configured hash function, with InvalidArgument;
all-or-nothing. -/
def validateDigest (d : Digest) : Except Err Digest :=
  if validHashString d.hash then .ok d
  else .error (.invalidArgument ("Invalid digest hash " ++ d.hash))

/-- One event of the trace of interactions with the blob store. -/
inductive StoreEvent where
  | getBlob : Digest → StoreEvent
  | containsMulti : List Digest → StoreEvent
  | setBlob : Digest → Blob → StoreEvent
deriving DecidableEq, Repr

/-- First-match association lookup, the map access of the model store. -/
def assocFind (d : Digest) : List (Digest × Blob) → Option Blob
  | [] => none
  | (k, v) :: rest => if k = d then some v else assocFind d rest

/-- Lookup in the mapping returned by ContainsMulti, the analogue of
foundMap access in Go. -/
def mapFind (d : Digest) : List (Digest × Bool) → Option Bool
  | [] => none
  | (k, v) :: rest => if k = d then some v else mapFind d rest

/-- Modelled from the spec: the DigestCache collaborator, of which only the
interface appears in the source. It is the prefixed, caller-scoped key/value
view the server holds: all server operations go through this one view. -/
structure Cache where
  entries : List (Digest × Blob)
deriving DecidableEq, Repr

/-- Raw map of the store. -/
def Cache.lookupBlob (c : Cache) (d : Digest) : Option Blob := assocFind d c.entries

/-- Modelled from the spec: single Get of the store; a miss is an error of
the store's own, which the server wraps or propagates. -/
def Cache.get (c : Cache) (d : Digest) : Except Err Blob :=
  match c.lookupBlob d with
  | some b => .ok b
  | none => .error (.storeMiss ("digest " ++ digestStr d ++ " not found in cache"))

/-- Modelled from the spec: single Set of the store; last write wins. -/
def Cache.set (c : Cache) (d : Digest) (b : Blob) : Cache :=
  ⟨(d, b) :: c.entries⟩

/-- Modelled from the spec: batched multi-exists of the store, honouring its
contract of returning an entry for every input digest. -/
def Cache.containsMulti (c : Cache) (ds : List Digest) : List (Digest × Bool) :=
  ds.map (fun d => (d, (c.lookupBlob d).isSome))

/-- Message of the Internal error for a store-contract violation, from the
source format string of checkFilesExist. -/
def containsMultiMissingMsg (d : Digest) : String :=
  "AC Inconsistent result from cache.ContainsMulti (missing " ++ digestStr d ++ ")"

/-- Message of the NotFound error for a missing output file, from the source
format string of checkFilesExist. -/
def outputFileNotFoundMsg (d : Digest) : String :=
  "ActionResult output file: " ++ digestStr d ++ " not found in cache"

/-- The loop of checkFilesExist over the requested digests, given the mapping
the store returned: a digest absent from the mapping is an Internal error, a
digest mapped to false is a NotFound error, source lines 44 to 52. -/
def checkFilesExistLoop (digests : List Digest) (foundMap : List (Digest × Bool)) :
    Except Err Unit :=
  match digests with
  | [] => .ok ()
  | d :: rest =>
    match mapFind d foundMap with
    | none => .error (.internal (containsMultiMissingMsg d))
    | some false => .error (.notFound (outputFileNotFoundMsg d))
    | some true => checkFilesExistLoop rest foundMap

/-- checkFilesExist, source lines 39 to 54: one batched ContainsMulti call,
then the loop over the requested digests. -/
def checkFilesExist (c : Cache) (digests : List Digest) :
    List StoreEvent × Except Err Unit :=
  ([StoreEvent.containsMulti digests],
   checkFilesExistLoop digests (c.containsMulti digests))

/-- The digest list checkDirExists builds, source lines 57 to 63: every file
entry of the directory except those with no digest set. -/
def dirFileDigests (dir : Option Directory) : List Digest :=
  go (dirGetFiles dir)
where
  go : List FileNode → List Digest
  | [] => []
  | f :: rest =>
    if f.digest.isNone then go rest else f.getDigest :: go rest

/-- checkDirExists, source lines 56 to 65. -/
def checkDirExists (c : Cache) (dir : Option Directory) :
    List StoreEvent × Except Err Unit :=
  checkFilesExist c (dirFileDigests dir)

/-- The digest list the output-file phase of validateActionResult builds,
source lines 68 to 73: files with non-empty inlined contents and a digest of
positive size, in order. -/
def outputFileDigests : List OutputFile → List Digest
  | [] => []
  | f :: rest =>
    if 0 < f.contents.length ∧ 0 < f.getDigest.sizeBytes then
      f.getDigest :: outputFileDigests rest
    else
      outputFileDigests rest

/-- The loop over tree children of validateActionResult, source lines
91 to 95: each child directory is checked in turn, stopping at the first
failure. -/
def checkChildren (c : Cache) : List Directory → List StoreEvent × Except Err Unit
  | [] => ([], .ok ())
  | child :: rest =>
    match checkDirExists c (some child) with
    | (tr, .error e) => (tr, .error e)
    | (tr, .ok _) =>
      match checkChildren c rest with
      | (tr2, res) => (tr ++ tr2, res)

/-- The output-directory phase of validateActionResult, source lines
78 to 96: for each output directory in order, fetch the tree blob, decode
it, check the root directory, then every child, stopping at the first
failure of any step. -/
def checkOutputDirs (c : Cache) : List OutputDirectory → List StoreEvent × Except Err Unit
  | [] => ([], .ok ())
  | od :: rest =>
    match c.get od.getTreeDigest with
    | .error e => ([StoreEvent.getBlob od.getTreeDigest], .error e)
    | .ok blob =>
      match unmarshalTree blob with
      | .error e => ([StoreEvent.getBlob od.getTreeDigest], .error e)
      | .ok tree =>
        match checkDirExists c tree.root with
        | (tr, .error e) => (StoreEvent.getBlob od.getTreeDigest :: tr, .error e)
        | (tr, .ok _) =>
          match checkChildren c tree.children with
          | (tr2, .error e) =>
            (StoreEvent.getBlob od.getTreeDigest :: tr ++ tr2, .error e)
          | (tr2, .ok _) =>
            match checkOutputDirs c rest with
            | (tr3, res) =>
              (StoreEvent.getBlob od.getTreeDigest :: tr ++ tr2 ++ tr3, res)

/-- validateActionResult, source lines 67 to 98: the output-file batch check
followed, on success, by the output-directory phase. -/
def validateActionResult (c : Cache) (r : ActionResult) :
    List StoreEvent × Except Err Unit :=
  match checkFilesExist c (outputFileDigests r.outputFiles) with
  | (tr, .error e) => (tr, .error e)
  | (tr, .ok _) =>
    match checkOutputDirs c r.outputDirectories with
    | (tr2, res) => (tr ++ tr2, res)

/-- setWorkerMetadata, source lines 100 to 104: the execution metadata is
replaced by a brand new message whose only populated field is the
server-generated worker identifier. -/
def setWorkerMetadata (workerID : String) (ar : ActionResult) : ActionResult :=
  { ar with
    executionMetadata :=
      some { worker := workerID, queuedTimestamp := none, workerStartTimestamp := none } }

/-- GetActionResultRequest message. -/
structure GetActionResultRequest where
  actionDigest : Option Digest
deriving DecidableEq, Repr

/-- UpdateActionResultRequest message. -/
structure UpdateActionResultRequest where
  actionDigest : Option Digest
  actionResult : Option ActionResult
deriving DecidableEq, Repr

/-- Message of the NotFound error of the read path, from the source format
string of GetActionResult. -/
def acNotFoundMsg (d : Digest) (e : Err) : String :=
  "ActionResult (" ++ digestStr d ++ ") not found: " ++ e.msg

/-- GetActionResult, source lines 118 to 143: nil guard, digest validation,
fetch of the action-result blob (a store error becomes NotFound on the
action digest), deserialization (a failure is returned as is), existence
validation (a failure becomes NotFound on the action digest). -/
def GetActionResult (c : Cache) (req : GetActionResultRequest) :
    List StoreEvent × Except Err ActionResult :=
  match req.actionDigest with
  | none => ([], .error (.invalidArgument "ActionDigest is a required field"))
  | some d =>
    match validateDigest d with
    | .error e => ([], .error e)
    | .ok _ =>
      match c.get d with
      | .error e => ([StoreEvent.getBlob d], .error (.notFound (acNotFoundMsg d e)))
      | .ok blob =>
        match unmarshalActionResult blob with
        | .error e => ([StoreEvent.getBlob d], .error e)
        | .ok rsp =>
          match validateActionResult c rsp with
          | (tr, .error e) =>
            (StoreEvent.getBlob d :: tr, .error (.notFound (acNotFoundMsg d e)))
          | (tr, .ok _) => (StoreEvent.getBlob d :: tr, .ok rsp)

/-- UpdateActionResult, source lines 161 to 187: nil guards, digest
validation, worker stamping, serialization, store, and return of the stamped
result. The third component is the store after the call. -/
def UpdateActionResult (workerID : String) (c : Cache) (req : UpdateActionResultRequest) :
    List StoreEvent × Except Err ActionResult × Cache :=
  match req.actionDigest with
  | none => ([], .error (.invalidArgument "ActionDigest is a required field"), c)
  | some d =>
    match req.actionResult with
    | none => ([], .error (.invalidArgument "ActionResult is a required field"), c)
    | some ar =>
      match validateDigest d with
      | .error e => ([], .error e, c)
      | .ok _ =>
        ([StoreEvent.setBlob d (marshalActionResult (setWorkerMetadata workerID ar))],
         .ok (setWorkerMetadata workerID ar),
         c.set d (marshalActionResult (setWorkerMetadata workerID ar)))

/-- Boolean presence of a list of digests in the store. -/
def digestsPresent (c : Cache) (ds : List Digest) : Bool :=
  ds.all (fun d => (c.lookupBlob d).isSome)

/-- Boolean presence of the closure of one output directory: its tree blob
is stored and decodes as a Tree, and every file digest of the root and of
every child is present. -/
def outDirPresent (c : Cache) (od : OutputDirectory) : Bool :=
  match c.lookupBlob od.getTreeDigest with
  | some (Blob.encTree t) =>
    digestsPresent c (dirFileDigests t.root)
      && t.children.all (fun ch => digestsPresent c (dirFileDigests (some ch)))
  | _ => false

/-- Boolean presence of the whole output closure of an ActionResult. -/
def allOutputsPresent (c : Cache) (r : ActionResult) : Bool :=
  digestsPresent c (outputFileDigests r.outputFiles)
    && r.outputDirectories.all (outDirPresent c)

/-- Discriminator: is a validation outcome an Internal error. -/
def isInternalResult : Except Err Unit → Bool
  | .error (.internal _) => true
  | _ => false

/-- A well-formed digest hash used by the concrete instances below. -/
def okHash : String :=
  "0123456789abcdef0123456789abcdef0123456789abcdef0123456789abcdef"

/-- A valid action digest used by the concrete instances below. -/
def okDigest : Digest := { hash := okHash, sizeBytes := 42 }

/-- An ActionResult with no outputs, used by the concrete instances below. -/
def emptyAR : ActionResult :=
  { outputFiles := [], outputDirectories := [], exitCode := 0,
    executionMetadata := none }

/-- An ActionResult carrying client-supplied execution metadata beyond the
worker field. -/
def clientAR : ActionResult :=
  { outputFiles := [], outputDirectories := [], exitCode := 0,
    executionMetadata :=
      some { worker := "client-worker", queuedTimestamp := some 7,
             workerStartTimestamp := some 8 } }

/-- clientAR with only its worker field replaced by the server identifier:
what a round trip would return if the write path changed nothing else. -/
def workerOnlyChangedAR : ActionResult :=
  { clientAR with
    executionMetadata :=
      some { worker := "srv", queuedTimestamp := some 7,
             workerStartTimestamp := some 8 } }

/-- The store after updating clientAR under okDigest into an empty store. -/
def cacheAfterUpdateC1 : Cache :=
  (UpdateActionResult "srv" ⟨[]⟩ ⟨some okDigest, some clientAR⟩).2.2

/-- A blob digest whose referenced content is stored in c1BaseCache. -/
def fileDigestW : Digest := { hash := "ee", sizeBytes := 2 }

/-- A store already holding the output blob referenced by c1InputAR. -/
def c1BaseCache : Cache := ⟨[(fileDigestW, Blob.raw [1, 2])]⟩

/-- An ActionResult with one output file whose blob is in c1BaseCache. -/
def c1InputAR : ActionResult :=
  { outputFiles := [{ path := "a.txt", digest := some fileDigestW, contents := [1] }],
    outputDirectories := [], exitCode := 0,
    executionMetadata :=
      some { worker := "client", queuedTimestamp := some 3,
             workerStartTimestamp := none } }

/-- A digest with content set and sizeBytes zero. -/
def zeroSizeDigest : Digest := { hash := "ff", sizeBytes := 0 }

/-- Digest under which treeC2 is stored. -/
def treeDigestC2 : Digest := { hash := "cc", sizeBytes := 9 }

/-- A tree whose root directory lists one file with a zero-size digest. -/
def treeC2 : Tree :=
  { root := some { files := [{ name := "f", digest := some zeroSizeDigest }] },
    children := [] }

/-- A store holding only the tree blob treeC2. -/
def cacheC2 : Cache := ⟨[(treeDigestC2, Blob.encTree treeC2)]⟩

/-- An ActionResult with one output directory pointing at treeC2. -/
def resultC2 : ActionResult :=
  { outputFiles := [],
    outputDirectories := [{ path := "odir", treeDigest := some treeDigestC2 }],
    exitCode := 0, executionMetadata := none }

/-- First requested digest of the C3 counterexample. -/
def d1 : Digest := { hash := "aa", sizeBytes := 1 }

/-- Second requested digest of the C3 counterexample. -/
def d2 : Digest := { hash := "bb", sizeBytes := 1 }

/-- An output file with a stored digest of positive size and inlined
contents, used by concrete instances. -/
def fileW : OutputFile :=
  { path := "p", digest := some { hash := "dd", sizeBytes := 4 }, contents := [1] }

/-- An output directory whose tree digest is absent from the empty store. -/
def odW : OutputDirectory :=
  { path := "out", treeDigest := some { hash := "tt", sizeBytes := 3 } }

/-- A store holding a blob that does not decode as an ActionResult. -/
def cacheC7 : Cache := ⟨[(okDigest, Blob.raw [1, 2])]⟩

theorem lookupBlob_set_self (c : Cache) (d : Digest) (b : Blob) :
    (c.set d b).lookupBlob d = some b := by
  simp [Cache.set, Cache.lookupBlob, assocFind]

theorem mapFind_containsMulti (c : Cache) (ds : List Digest) (d : Digest)
    (hd : d ∈ ds) :
    mapFind d (c.containsMulti ds) = some (c.lookupBlob d).isSome := by
  induction ds with
  | nil => cases hd
  | cons k rest ih =>
    simp only [Cache.containsMulti, List.map_cons, mapFind]
    by_cases hk : k = d
    · subst hk; simp
    · simp only [if_neg hk]
      rcases List.mem_cons.mp hd with h | h
      · exact absurd h.symm hk
      · exact ih h

theorem checkFilesExistLoop_ok_iff (ds : List Digest) (m : List (Digest × Bool)) :
    checkFilesExistLoop ds m = .ok () ↔ ∀ d ∈ ds, mapFind d m = some true := by
  induction ds with
  | nil => simp [checkFilesExistLoop]
  | cons d rest ih =>
    simp only [checkFilesExistLoop]
    cases hm : mapFind d m with
    | none => simp [hm]
    | some b =>
      cases b with
      | false => simp [hm]
      | true => simp [hm, ih]

theorem checkFilesExistLoop_missing (ds1 : List Digest) (d : Digest)
    (ds2 : List Digest) (m : List (Digest × Bool))
    (h1 : ∀ x ∈ ds1, mapFind x m = some true) (h2 : mapFind d m = none) :
    checkFilesExistLoop (ds1 ++ d :: ds2) m
      = .error (.internal (containsMultiMissingMsg d)) := by
  induction ds1 with
  | nil => simp [checkFilesExistLoop, h2]
  | cons x rest ih =>
    have hx : mapFind x m = some true := h1 x (List.mem_cons_self x rest)
    simp only [List.cons_append, checkFilesExistLoop, hx]
    exact ih (fun y hy => h1 y (List.mem_cons_of_mem x hy))

theorem checkFilesExistLoop_notFound (ds1 : List Digest) (d : Digest)
    (ds2 : List Digest) (m : List (Digest × Bool))
    (h1 : ∀ x ∈ ds1, mapFind x m = some true) (h2 : mapFind d m = some false) :
    checkFilesExistLoop (ds1 ++ d :: ds2) m
      = .error (.notFound (outputFileNotFoundMsg d)) := by
  induction ds1 with
  | nil => simp [checkFilesExistLoop, h2]
  | cons x rest ih =>
    have hx : mapFind x m = some true := h1 x (List.mem_cons_self x rest)
    simp only [List.cons_append, checkFilesExistLoop, hx]
    exact ih (fun y hy => h1 y (List.mem_cons_of_mem x hy))

theorem mem_outputFileDigests (fs : List OutputFile) (d : Digest) :
    d ∈ outputFileDigests fs
      ↔ ∃ f, f ∈ fs ∧ 0 < f.contents.length ∧ 0 < f.getDigest.sizeBytes
          ∧ d = f.getDigest := by
  induction fs with
  | nil => simp [outputFileDigests]
  | cons f rest ih =>
    simp only [outputFileDigests]
    by_cases hc : 0 < f.contents.length ∧ 0 < f.getDigest.sizeBytes
    · simp only [if_pos hc, List.mem_cons, ih]
      constructor
      · rintro (rfl | ⟨g, hg, h1, h2, rfl⟩)
        · exact ⟨f, Or.inl rfl, hc.1, hc.2, rfl⟩
        · exact ⟨g, Or.inr hg, h1, h2, rfl⟩
      · rintro ⟨g, hg, h1, h2, rfl⟩
        rcases hg with rfl | hg2
        · exact Or.inl rfl
        · exact Or.inr ⟨g, hg2, h1, h2, rfl⟩
    · simp only [if_neg hc, ih]
      constructor
      · rintro ⟨g, hg, h1, h2, rfl⟩
        exact ⟨g, List.mem_cons_of_mem f hg, h1, h2, rfl⟩
      · rintro ⟨g, hg, h1, h2, rfl⟩
        rcases List.mem_cons.mp hg with rfl | hg2
        · exact absurd ⟨h1, h2⟩ hc
        · exact ⟨g, hg2, h1, h2, rfl⟩

theorem mem_dirFileDigests_go (fs : List FileNode) (d : Digest) :
    d ∈ dirFileDigests.go fs ↔ ∃ f, f ∈ fs ∧ f.digest = some d := by
  induction fs with
  | nil => simp [dirFileDigests.go]
  | cons f rest ih =>
    simp only [dirFileDigests.go]
    cases hf : f.digest with
    | none =>
      simp only [hf, Option.isNone_none, if_pos, ih]
      constructor
      · rintro ⟨g, hg, hgd⟩
        exact ⟨g, List.mem_cons_of_mem f hg, hgd⟩
      · rintro ⟨g, hg, hgd⟩
        rcases List.mem_cons.mp hg with rfl | hg2
        · rw [hf] at hgd; cases hgd
        · exact ⟨g, hg2, hgd⟩
    | some dg =>
      have hgd : f.getDigest = dg := by simp [FileNode.getDigest, hf]
      simp only [hf, Option.isNone_some, Bool.false_eq_true, if_false, hgd,
        List.mem_cons, ih]
      constructor
      · rintro (rfl | ⟨g, hg, hgd2⟩)
        · exact ⟨f, Or.inl rfl, hf⟩
        · exact ⟨g, Or.inr hg, hgd2⟩
      · rintro ⟨g, hg, hgd2⟩
        rcases hg with rfl | hg2
        · rw [hf] at hgd2; cases hgd2; exact Or.inl rfl
        · exact Or.inr ⟨g, hg2, hgd2⟩

theorem mem_dirFileDigests (dir : Option Directory) (d : Digest) :
    d ∈ dirFileDigests dir ↔ ∃ f, f ∈ dirGetFiles dir ∧ f.digest = some d :=
  mem_dirFileDigests_go (dirGetFiles dir) d

theorem checkFilesExist_ok (c : Cache) (ds : List Digest)
    (h : digestsPresent c ds = true) :
    (checkFilesExist c ds).2 = .ok () := by
  simp only [checkFilesExist]
  rw [checkFilesExistLoop_ok_iff]
  intro d hd
  rw [mapFind_containsMulti c ds d hd]
  simp only [digestsPresent, List.all_eq_true] at h
  rw [h d hd]

theorem checkDirExists_ok (c : Cache) (dir : Option Directory)
    (h : digestsPresent c (dirFileDigests dir) = true) :
    (checkDirExists c dir).2 = .ok () :=
  checkFilesExist_ok c (dirFileDigests dir) h

theorem checkChildren_err (c : Cache) (child : Directory) (rest : List Directory)
    (e : Err) (h : (checkDirExists c (some child)).2 = .error e) :
    checkChildren c (child :: rest)
      = ((checkDirExists c (some child)).1, .error e) := by
  rcases hcd : checkDirExists c (some child) with ⟨tr, res⟩
  rw [hcd] at h
  simp only at h
  subst h
  simp [checkChildren, hcd]

theorem checkChildren_step (c : Cache) (child : Directory) (rest : List Directory)
    (h : (checkDirExists c (some child)).2 = .ok ()) :
    checkChildren c (child :: rest)
      = ((checkDirExists c (some child)).1 ++ (checkChildren c rest).1,
         (checkChildren c rest).2) := by
  rcases hcd : checkDirExists c (some child) with ⟨tr, res⟩
  rw [hcd] at h
  simp only at h
  subst h
  rcases hcc : checkChildren c rest with ⟨tr2, res2⟩
  simp [checkChildren, hcd, hcc]

theorem checkChildren_ok (c : Cache) (children : List Directory)
    (h : ∀ ch ∈ children, digestsPresent c (dirFileDigests (some ch)) = true) :
    (checkChildren c children).2 = .ok () := by
  induction children with
  | nil => rfl
  | cons child rest ih =>
    have h1 : (checkDirExists c (some child)).2 = .ok () :=
      checkDirExists_ok c (some child) (h child (List.mem_cons_self child rest))
    rw [checkChildren_step c child rest h1]
    exact ih (fun ch hch => h ch (List.mem_cons_of_mem child hch))

theorem checkOutputDirs_get_err (c : Cache) (od : OutputDirectory)
    (rest : List OutputDirectory) (e : Err)
    (h : c.get od.getTreeDigest = .error e) :
    checkOutputDirs c (od :: rest)
      = ([StoreEvent.getBlob od.getTreeDigest], .error e) := by
  simp [checkOutputDirs, h]

theorem checkOutputDirs_unmarshal_err (c : Cache) (od : OutputDirectory)
    (rest : List OutputDirectory) (blob : Blob) (e : Err)
    (hg : c.get od.getTreeDigest = .ok blob) (hu : unmarshalTree blob = .error e) :
    checkOutputDirs c (od :: rest)
      = ([StoreEvent.getBlob od.getTreeDigest], .error e) := by
  simp [checkOutputDirs, hg, hu]

theorem checkOutputDirs_root_err (c : Cache) (od : OutputDirectory)
    (rest : List OutputDirectory) (t : Tree) (e : Err)
    (hg : c.get od.getTreeDigest = .ok (Blob.encTree t))
    (hr : (checkDirExists c t.root).2 = .error e) :
    checkOutputDirs c (od :: rest)
      = (StoreEvent.getBlob od.getTreeDigest :: (checkDirExists c t.root).1,
         .error e) := by
  rcases hcd : checkDirExists c t.root with ⟨tr, res⟩
  rw [hcd] at hr
  simp only at hr
  subst hr
  simp [checkOutputDirs, hg, unmarshalTree, hcd]

theorem checkOutputDirs_children_err (c : Cache) (od : OutputDirectory)
    (rest : List OutputDirectory) (t : Tree) (e : Err)
    (hg : c.get od.getTreeDigest = .ok (Blob.encTree t))
    (hr : (checkDirExists c t.root).2 = .ok ())
    (hc : (checkChildren c t.children).2 = .error e) :
    checkOutputDirs c (od :: rest)
      = (StoreEvent.getBlob od.getTreeDigest
           :: (checkDirExists c t.root).1 ++ (checkChildren c t.children).1,
         .error e) := by
  rcases hcd : checkDirExists c t.root with ⟨tr, res⟩
  rw [hcd] at hr
  simp only at hr
  subst hr
  rcases hcc : checkChildren c t.children with ⟨tr2, res2⟩
  rw [hcc] at hc
  simp only at hc
  subst hc
  simp [checkOutputDirs, hg, unmarshalTree, hcd, hcc]

theorem checkOutputDirs_step (c : Cache) (od : OutputDirectory)
    (rest : List OutputDirectory) (t : Tree)
    (hg : c.get od.getTreeDigest = .ok (Blob.encTree t))
    (hr : (checkDirExists c t.root).2 = .ok ())
    (hc : (checkChildren c t.children).2 = .ok ()) :
    checkOutputDirs c (od :: rest)
      = (StoreEvent.getBlob od.getTreeDigest
           :: (checkDirExists c t.root).1 ++ (checkChildren c t.children).1
           ++ (checkOutputDirs c rest).1,
         (checkOutputDirs c rest).2) := by
  rcases hcd : checkDirExists c t.root with ⟨tr, res⟩
  rw [hcd] at hr
  simp only at hr
  subst hr
  rcases hcc : checkChildren c t.children with ⟨tr2, res2⟩
  rw [hcc] at hc
  simp only at hc
  subst hc
  rcases hcr : checkOutputDirs c rest with ⟨tr3, res3⟩
  simp [checkOutputDirs, hg, unmarshalTree, hcd, hcc, hcr]

theorem checkOutputDirs_ok (c : Cache) (dirs : List OutputDirectory)
    (h : ∀ od ∈ dirs, outDirPresent c od = true) :
    (checkOutputDirs c dirs).2 = .ok () := by
  induction dirs with
  | nil => rfl
  | cons od rest ih =>
    have hod : outDirPresent c od = true := h od (List.mem_cons_self od rest)
    unfold outDirPresent at hod
    rcases hl : c.lookupBlob od.getTreeDigest with _ | b
    · rw [hl] at hod; simp at hod
    · rw [hl] at hod
      cases b with
      | raw bs => simp at hod
      | encActionResult r2 => simp at hod
      | encTree t =>
        simp only [Bool.and_eq_true, List.all_eq_true] at hod
        have hg : c.get od.getTreeDigest = .ok (Blob.encTree t) := by
          simp [Cache.get, hl]
        have hr : (checkDirExists c t.root).2 = .ok () :=
          checkDirExists_ok c t.root hod.1
        have hc : (checkChildren c t.children).2 = .ok () :=
          checkChildren_ok c t.children (fun ch hch => hod.2 ch hch)
        rw [checkOutputDirs_step c od rest t hg hr hc]
        exact ih (fun x hx => h x (List.mem_cons_of_mem od hx))

theorem validateActionResult_files_err (c : Cache) (r : ActionResult) (e : Err)
    (h : checkFilesExistLoop (outputFileDigests r.outputFiles)
           (c.containsMulti (outputFileDigests r.outputFiles)) = .error e) :
    validateActionResult c r
      = ([StoreEvent.containsMulti (outputFileDigests r.outputFiles)], .error e) := by
  simp [validateActionResult, checkFilesExist, h]

theorem validateActionResult_files_ok (c : Cache) (r : ActionResult)
    (h : checkFilesExistLoop (outputFileDigests r.outputFiles)
           (c.containsMulti (outputFileDigests r.outputFiles)) = .ok ()) :
    validateActionResult c r
      = (StoreEvent.containsMulti (outputFileDigests r.outputFiles)
           :: (checkOutputDirs c r.outputDirectories).1,
         (checkOutputDirs c r.outputDirectories).2) := by
  rcases hcd : checkOutputDirs c r.outputDirectories with ⟨tr, res⟩
  simp [validateActionResult, checkFilesExist, h, hcd]

theorem validateActionResult_ok (c : Cache) (r : ActionResult)
    (h : allOutputsPresent c r = true) :
    (validateActionResult c r).2 = .ok () := by
  simp only [allOutputsPresent, Bool.and_eq_true, List.all_eq_true] at h
  have h1 : (checkFilesExist c (outputFileDigests r.outputFiles)).2 = .ok () :=
    checkFilesExist_ok c (outputFileDigests r.outputFiles) h.1
  simp only [checkFilesExist] at h1
  rw [validateActionResult_files_ok c r h1]
  exact checkOutputDirs_ok c r.outputDirectories (fun od hod => h.2 od hod)

theorem getActionResult_get_err (c : Cache) (d : Digest) (e : Err)
    (hv : validateDigest d = .ok d) (hg : c.get d = .error e) :
    GetActionResult c ⟨some d⟩
      = ([StoreEvent.getBlob d], .error (.notFound (acNotFoundMsg d e))) := by
  simp [GetActionResult, hv, hg]

theorem getActionResult_unmarshal_err (c : Cache) (d : Digest) (blob : Blob)
    (e : Err) (hv : validateDigest d = .ok d) (hg : c.get d = .ok blob)
    (hu : unmarshalActionResult blob = .error e) :
    GetActionResult c ⟨some d⟩ = ([StoreEvent.getBlob d], .error e) := by
  simp [GetActionResult, hv, hg, hu]

theorem getActionResult_validate_err (c : Cache) (d : Digest) (blob : Blob)
    (rsp : ActionResult) (e : Err)
    (hv : validateDigest d = .ok d) (hg : c.get d = .ok blob)
    (hu : unmarshalActionResult blob = .ok rsp)
    (hval : (validateActionResult c rsp).2 = .error e) :
    GetActionResult c ⟨some d⟩
      = (StoreEvent.getBlob d :: (validateActionResult c rsp).1,
         .error (.notFound (acNotFoundMsg d e))) := by
  rcases hv2 : validateActionResult c rsp with ⟨tr, res⟩
  rw [hv2] at hval
  simp only at hval
  subst hval
  simp [GetActionResult, hv, hg, hu, hv2]

theorem getActionResult_ok (c : Cache) (d : Digest) (blob : Blob)
    (rsp : ActionResult)
    (hv : validateDigest d = .ok d) (hg : c.get d = .ok blob)
    (hu : unmarshalActionResult blob = .ok rsp)
    (hval : (validateActionResult c rsp).2 = .ok ()) :
    GetActionResult c ⟨some d⟩
      = (StoreEvent.getBlob d :: (validateActionResult c rsp).1, .ok rsp) := by
  rcases hv2 : validateActionResult c rsp with ⟨tr, res⟩
  rw [hv2] at hval
  simp only at hval
  subst hval
  simp [GetActionResult, hv, hg, hu, hv2]

theorem updateActionResult_eq (w : String) (c : Cache) (d : Digest)
    (ar : ActionResult) (hv : validateDigest d = .ok d) :
    UpdateActionResult w c ⟨some d, some ar⟩
      = ([StoreEvent.setBlob d (marshalActionResult (setWorkerMetadata w ar))],
         .ok (setWorkerMetadata w ar),
         c.set d (marshalActionResult (setWorkerMetadata w ar))) := by
  simp [UpdateActionResult, hv]

/-- C6: on the read path, for every valid action digest, a store-level miss
or error fetching the action-result blob, and any failure of existence
validation (its NotFound case and its Internal case alike, since e ranges
over all errors), are each reported as NotFound carrying the original action
digest in the message, never as the raw store error. -/
theorem c6_read_path_not_found_folding (c : Cache) (d : Digest)
    (hv : validateDigest d = .ok d) :
    (∀ e, c.get d = .error e →
       (GetActionResult c ⟨some d⟩).2 = .error (.notFound (acNotFoundMsg d e)))
  ∧ (∀ blob rsp e, c.get d = .ok blob → unmarshalActionResult blob = .ok rsp →
       (validateActionResult c rsp).2 = .error e →
       (GetActionResult c ⟨some d⟩).2 = .error (.notFound (acNotFoundMsg d e))) := by
  constructor
  · intro e hg
    rw [getActionResult_get_err c d e hv hg]
  · intro blob rsp e hg hu hval
    rw [getActionResult_validate_err c d blob rsp e hv hg hu hval]

/-- Witness for c6: a miss of the action-result blob in an empty store is
reported as NotFound on the action digest. -/
theorem c6_read_path_not_found_folding_witness :
    (GetActionResult (⟨[]⟩ : Cache) ⟨some okDigest⟩).2
      = .error (.notFound (acNotFoundMsg okDigest
          (.storeMiss ("digest " ++ digestStr okDigest ++ " not found in cache")))) :=
  (c6_read_path_not_found_folding ⟨[]⟩ okDigest rfl).1 _ rfl

/-- C7: for every fetched action-result blob that fails to deserialize,
GetActionResult returns that distinct internal error itself, not a NotFound
error. -/
theorem c7_unmarshal_error_distinct (c : Cache) (d : Digest) (blob : Blob)
    (e : Err) (hv : validateDigest d = .ok d) (hg : c.get d = .ok blob)
    (hu : unmarshalActionResult blob = .error e) :
    (GetActionResult c ⟨some d⟩).2 = .error e
  ∧ (∃ m, e = .internal m)
  ∧ (∀ m, e ≠ .notFound m) := by
  have he : e = Err.internal "failed to unmarshal ActionResult" := by
    cases blob with
    | raw bs => injection hu with h; exact h.symm
    | encActionResult r => exact absurd hu (by simp [unmarshalActionResult])
    | encTree t => injection hu with h; exact h.symm
  subst he
  refine ⟨?_, ⟨_, rfl⟩, fun m h => Err.noConfusion h⟩
  rw [getActionResult_unmarshal_err c d blob _ hv hg hu]

/-- Witness for c7: a raw blob stored under a valid digest surfaces the
internal deserialization error. -/
theorem c7_unmarshal_error_distinct_witness :
    (GetActionResult cacheC7 ⟨some okDigest⟩).2
      = .error (.internal "failed to unmarshal ActionResult") :=
  (c7_unmarshal_error_distinct cacheC7 okDigest (Blob.raw [1, 2]) _ rfl rfl rfl).1

/-- C8: the write path performs no existence validation: for every request
its trace and returned result are the same over any two stores, and on a
well-formed request the whole outcome is one Set of the stamped result under
the request digest, with no ContainsMulti and no Get event. -/
theorem c8_write_path_no_validation (w : String) :
    (∀ (req : UpdateActionResultRequest) (c1 c2 : Cache),
       (UpdateActionResult w c1 req).1 = (UpdateActionResult w c2 req).1
     ∧ (UpdateActionResult w c1 req).2.1 = (UpdateActionResult w c2 req).2.1)
  ∧ (∀ (c : Cache) (d : Digest) (ar : ActionResult), validateDigest d = .ok d →
       UpdateActionResult w c ⟨some d, some ar⟩
         = ([StoreEvent.setBlob d (marshalActionResult (setWorkerMetadata w ar))],
            .ok (setWorkerMetadata w ar),
            c.set d (marshalActionResult (setWorkerMetadata w ar)))) := by
  constructor
  · intro req c1 c2
    rcases req with ⟨od, oar⟩
    cases od with
    | none => exact ⟨rfl, rfl⟩
    | some d =>
      cases oar with
      | none => exact ⟨rfl, rfl⟩
      | some ar =>
        cases hv : validateDigest d with
        | error e => simp [UpdateActionResult, hv]
        | ok d2 => simp [UpdateActionResult, hv]
  · intro c d ar hv
    exact updateActionResult_eq w c d ar hv

/-- Witness for c8: concrete well-formed update into an empty store. -/
theorem c8_write_path_no_validation_witness :
    UpdateActionResult "w" (⟨[]⟩ : Cache) ⟨some okDigest, some emptyAR⟩
      = ([StoreEvent.setBlob okDigest
            (marshalActionResult (setWorkerMetadata "w" emptyAR))],
         .ok (setWorkerMetadata "w" emptyAR),
         Cache.set ⟨[]⟩ okDigest
           (marshalActionResult (setWorkerMetadata "w" emptyAR))) :=
  (c8_write_path_no_validation "w").2 ⟨[]⟩ okDigest emptyAR rfl

/-- C9: GetActionResult with a nil actionDigest returns InvalidArgument with
an empty store trace, and UpdateActionResult with a nil actionDigest or a
nil actionResult returns InvalidArgument with an empty trace and the store
unchanged. -/
theorem c9_nil_argument_guards (c : Cache) (w : String)
    (oar : Option ActionResult) (d : Digest) :
    GetActionResult c ⟨none⟩
      = ([], .error (.invalidArgument "ActionDigest is a required field"))
  ∧ UpdateActionResult w c ⟨none, oar⟩
      = ([], .error (.invalidArgument "ActionDigest is a required field"), c)
  ∧ UpdateActionResult w c ⟨some d, none⟩
      = ([], .error (.invalidArgument "ActionResult is a required field"), c) :=
  ⟨rfl, rfl, rfl⟩

/-- C10: the stored and returned ActionResult of every well-formed update
carries an entirely new executionMetadata whose only populated field is the
server worker identifier; every client-supplied metadata field is discarded,
while the outputs are untouched. -/
theorem c10_fresh_execution_metadata (w : String) (c : Cache) (d : Digest)
    (ar : ActionResult) (hv : validateDigest d = .ok d) :
    (UpdateActionResult w c ⟨some d, some ar⟩).2.1 = .ok (setWorkerMetadata w ar)
  ∧ (UpdateActionResult w c ⟨some d, some ar⟩).2.2
      = c.set d (Blob.encActionResult (setWorkerMetadata w ar))
  ∧ (setWorkerMetadata w ar).executionMetadata
      = some { worker := w, queuedTimestamp := none, workerStartTimestamp := none }
  ∧ (setWorkerMetadata w ar).outputFiles = ar.outputFiles
  ∧ (setWorkerMetadata w ar).outputDirectories = ar.outputDirectories := by
  rw [updateActionResult_eq w c d ar hv]
  exact ⟨rfl, rfl, rfl, rfl, rfl⟩

/-- Witness for c10: a client-supplied queuedTimestamp is discarded. -/
theorem c10_fresh_execution_metadata_witness :
    (setWorkerMetadata "srv" clientAR).executionMetadata
      = some { worker := "srv", queuedTimestamp := none,
               workerStartTimestamp := none } :=
  (c10_fresh_execution_metadata "srv" ⟨[]⟩ okDigest clientAR rfl).2.2.1

/-- C1, counterexample: Update then Get of an ActionResult carrying client
execution metadata does not return it unchanged except for the worker field;
the whole metadata message is replaced, dropping the client timestamps. -/
theorem c1_round_trip_counterexample :
    (GetActionResult cacheAfterUpdateC1 ⟨some okDigest⟩).2
      = .ok (setWorkerMetadata "srv" clientAR)
  ∧ setWorkerMetadata "srv" clientAR ≠ workerOnlyChangedAR
  ∧ (setWorkerMetadata "srv" clientAR).executionMetadata
      = some { worker := "srv", queuedTimestamp := none,
               workerStartTimestamp := none }
  ∧ clientAR.executionMetadata
      = some { worker := "client-worker", queuedTimestamp := some 7,
               workerStartTimestamp := some 8 } :=
  ⟨rfl, by decide, rfl, rfl⟩

/-- C1, amended: for every ActionResult whose referenced output closure is
present in the store after the update, Get after Update under a valid digest
returns the stored result, which is the written one unchanged except that
its executionMetadata is replaced by a server-stamped message; in
particular the outputFiles and outputDirectories are identical to what was
written. -/
theorem c1_round_trip_amended (w : String) (c0 : Cache) (d : Digest)
    (r : ActionResult) (hv : validateDigest d = .ok d)
    (hp : allOutputsPresent ((UpdateActionResult w c0 ⟨some d, some r⟩).2.2)
            (setWorkerMetadata w r) = true) :
    (GetActionResult ((UpdateActionResult w c0 ⟨some d, some r⟩).2.2)
        ⟨some d⟩).2
      = .ok (setWorkerMetadata w r)
  ∧ (setWorkerMetadata w r).outputFiles = r.outputFiles
  ∧ (setWorkerMetadata w r).outputDirectories = r.outputDirectories := by
  have hc : (UpdateActionResult w c0 ⟨some d, some r⟩).2.2
      = c0.set d (marshalActionResult (setWorkerMetadata w r)) := by
    rw [updateActionResult_eq w c0 d r hv]
  refine ⟨?_, rfl, rfl⟩
  rw [hc] at hp ⊢
  have hg : (c0.set d (marshalActionResult (setWorkerMetadata w r))).get d
      = .ok (marshalActionResult (setWorkerMetadata w r)) := by
    simp [Cache.get, lookupBlob_set_self]
  have hval : (validateActionResult
      (c0.set d (marshalActionResult (setWorkerMetadata w r)))
      (setWorkerMetadata w r)).2 = .ok () :=
    validateActionResult_ok _ _ hp
  rw [getActionResult_ok _ d _ _ hv hg rfl hval]

/-- Witness for c1 amended: a result with one output file whose blob is
already stored round-trips to its stamped form. -/
theorem c1_round_trip_amended_witness :
    (GetActionResult
        ((UpdateActionResult "srv" c1BaseCache ⟨some okDigest, some c1InputAR⟩).2.2)
        ⟨some okDigest⟩).2
      = .ok (setWorkerMetadata "srv" c1InputAR) :=
  (c1_round_trip_amended "srv" c1BaseCache okDigest c1InputAR rfl rfl).1

/-- C2, counterexample: on the directory path a file digest that is set but
has sizeBytes zero is included in a ContainsMulti batch; the full trace of
validating resultC2 ends in a batch carrying exactly that digest. -/
theorem c2_zero_size_counterexample :
    (validateActionResult cacheC2 resultC2).1
      = [StoreEvent.containsMulti [], StoreEvent.getBlob treeDigestC2,
         StoreEvent.containsMulti [zeroSizeDigest]]
  ∧ StoreEvent.containsMulti [zeroSizeDigest]
      ∈ (validateActionResult cacheC2 resultC2).1
  ∧ zeroSizeDigest.sizeBytes = 0 :=
  ⟨rfl, by decide, rfl⟩

/-- C2, amended: every digest batched on the output-file path has positive
size, so a digest that is unset on its entry or has sizeBytes zero is never
included in the output-file ContainsMulti batch; on the directory path only
entries with no digest set are excluded: the batch holds exactly the digests
set on some file entry, zero-size ones included. -/
theorem c2_exclusion_amended :
    (∀ fs d, d ∈ outputFileDigests fs → 0 < d.sizeBytes)
  ∧ (∀ fs d, d.sizeBytes = 0 → d ∉ outputFileDigests fs)
  ∧ (∀ dir d, d ∈ dirFileDigests dir
       ↔ ∃ f, f ∈ dirGetFiles dir ∧ f.digest = some d) := by
  have h1 : ∀ fs d, d ∈ outputFileDigests fs → 0 < d.sizeBytes := by
    intro fs d hd
    rcases (mem_outputFileDigests fs d).mp hd with ⟨f, _, _, h2, rfl⟩
    exact h2
  refine ⟨h1, ?_, mem_dirFileDigests⟩
  intro fs d hz hd
  have h2 := h1 fs d hd
  omega

/-- Witness for c2 amended: the digest batched for fileW has positive size. -/
theorem c2_exclusion_amended_witness :
    (0 : Int) < (OutputFile.getDigest fileW).sizeBytes :=
  c2_exclusion_amended.1 [fileW] fileW.getDigest (by decide)

/-- C3, counterexample: with requested digests d1 and d2 and a returned
mapping that marks d1 not-found and lacks d2 entirely, the check returns
NotFound for d1, not an Internal error, although the mapping lacks an entry
for the requested digest d2. -/
theorem c3_contains_multi_counterexample :
    checkFilesExistLoop [d1, d2] [(d1, false)]
      = .error (.notFound (outputFileNotFoundMsg d1))
  ∧ isInternalResult (checkFilesExistLoop [d1, d2] [(d1, false)]) = false
  ∧ mapFind d2 [(d1, false)] = none
  ∧ d2 ∈ [d1, d2] :=
  ⟨rfl, rfl, rfl, by decide⟩

/-- C3, amended: scanning the requested digests in order, the check returns
ok exactly when every requested digest is mapped to present; it returns the
Internal error naming a digest lacking an entry when every digest before it
is mapped present; and it returns the NotFound error naming a digest mapped
not-found when every digest before it is mapped present. -/
theorem c3_contains_multi_amended :
    (∀ ds m, checkFilesExistLoop ds m = .ok ()
       ↔ ∀ d ∈ ds, mapFind d m = some true)
  ∧ (∀ ds1 d ds2 m, (∀ x ∈ ds1, mapFind x m = some true) →
       mapFind d m = none →
       checkFilesExistLoop (ds1 ++ d :: ds2) m
         = .error (.internal (containsMultiMissingMsg d)))
  ∧ (∀ ds1 d ds2 m, (∀ x ∈ ds1, mapFind x m = some true) →
       mapFind d m = some false →
       checkFilesExistLoop (ds1 ++ d :: ds2) m
         = .error (.notFound (outputFileNotFoundMsg d))) :=
  ⟨checkFilesExistLoop_ok_iff, checkFilesExistLoop_missing,
   checkFilesExistLoop_notFound⟩

/-- Witness for c3 amended: an empty mapping makes the first requested
digest an Internal store-contract fault. -/
theorem c3_contains_multi_amended_witness :
    checkFilesExistLoop [d2] [] = .error (.internal (containsMultiMissingMsg d2)) :=
  c3_contains_multi_amended.2.1 [] d2 [] []
    (fun x hx => absurd hx (List.not_mem_nil x)) rfl

/-- C4: the output-file validation step of every ActionResult issues exactly
one batched ContainsMulti query, which opens the full validation trace, and
that query carries exactly the digests of output files with non-empty
inlined contents and positive digest size. -/
theorem c4_single_batch_exact_digests (c : Cache) (r : ActionResult) :
    (validateActionResult c { r with outputDirectories := [] }).1
      = [StoreEvent.containsMulti (outputFileDigests r.outputFiles)]
  ∧ (∀ d, d ∈ outputFileDigests r.outputFiles
       ↔ ∃ f, f ∈ r.outputFiles ∧ 0 < f.contents.length
            ∧ 0 < f.getDigest.sizeBytes ∧ d = f.getDigest)
  ∧ (∃ rest, (validateActionResult c r).1
       = StoreEvent.containsMulti (outputFileDigests r.outputFiles) :: rest) := by
  refine ⟨?_, fun d => mem_outputFileDigests r.outputFiles d, ?_⟩
  · cases h : checkFilesExistLoop (outputFileDigests r.outputFiles)
        (c.containsMulti (outputFileDigests r.outputFiles)) with
    | error e =>
      rw [validateActionResult_files_err c { r with outputDirectories := [] } e h]
    | ok u =>
      cases u
      rw [validateActionResult_files_ok c { r with outputDirectories := [] } h]
      rfl
  · cases h : checkFilesExistLoop (outputFileDigests r.outputFiles)
        (c.containsMulti (outputFileDigests r.outputFiles)) with
    | error e =>
      exact ⟨[], by rw [validateActionResult_files_err c r e h]⟩
    | ok u =>
      cases u
      exact ⟨(checkOutputDirs c r.outputDirectories).1,
        by rw [validateActionResult_files_ok c r h]⟩

/-- C5: the output-directory phase processes directories in order; a miss or
error fetching a tree blob is propagated at once with nothing further done;
a decode failure likewise; the root directory is checked before the
children, each child in turn; the first failure of any step ends the phase
with exactly the events up to that step and no aggregation; only full
success of a directory reaches the rest of the list. -/
theorem c5_directory_order_short_circuit (c : Cache) :
    (checkOutputDirs c [] = ([], .ok ()))
  ∧ (∀ od rest e, Cache.get c od.getTreeDigest = .error e →
       checkOutputDirs c (od :: rest)
         = ([StoreEvent.getBlob od.getTreeDigest], .error e))
  ∧ (∀ od rest blob e, Cache.get c od.getTreeDigest = .ok blob →
       unmarshalTree blob = .error e →
       checkOutputDirs c (od :: rest)
         = ([StoreEvent.getBlob od.getTreeDigest], .error e))
  ∧ (∀ od rest t e, Cache.get c od.getTreeDigest = .ok (Blob.encTree t) →
       (checkDirExists c t.root).2 = .error e →
       checkOutputDirs c (od :: rest)
         = (StoreEvent.getBlob od.getTreeDigest :: (checkDirExists c t.root).1,
            .error e))
  ∧ (∀ od rest t e, Cache.get c od.getTreeDigest = .ok (Blob.encTree t) →
       (checkDirExists c t.root).2 = .ok () →
       (checkChildren c t.children).2 = .error e →
       checkOutputDirs c (od :: rest)
         = (StoreEvent.getBlob od.getTreeDigest
              :: (checkDirExists c t.root).1 ++ (checkChildren c t.children).1,
            .error e))
  ∧ (∀ child rest e, (checkDirExists c (some child)).2 = .error e →
       checkChildren c (child :: rest)
         = ((checkDirExists c (some child)).1, .error e))
  ∧ (∀ od rest t, Cache.get c od.getTreeDigest = .ok (Blob.encTree t) →
       (checkDirExists c t.root).2 = .ok () →
       (checkChildren c t.children).2 = .ok () →
       checkOutputDirs c (od :: rest)
         = (StoreEvent.getBlob od.getTreeDigest
              :: (checkDirExists c t.root).1 ++ (checkChildren c t.children).1
              ++ (checkOutputDirs c rest).1,
            (checkOutputDirs c rest).2)) :=
  ⟨rfl,
   fun od rest e h => checkOutputDirs_get_err c od rest e h,
   fun od rest blob e hg hu => checkOutputDirs_unmarshal_err c od rest blob e hg hu,
   fun od rest t e hg hr => checkOutputDirs_root_err c od rest t e hg hr,
   fun od rest t e hg hr hc2 => checkOutputDirs_children_err c od rest t e hg hr hc2,
   fun child rest e h => checkChildren_err c child rest e h,
   fun od rest t hg hr hc2 => checkOutputDirs_step c od rest t hg hr hc2⟩

/-- Witness for c5: a missing tree blob in the empty store is propagated at
once as the phase outcome. -/
theorem c5_directory_order_short_circuit_witness :
    checkOutputDirs (⟨[]⟩ : Cache) [odW]
      = ([StoreEvent.getBlob odW.getTreeDigest],
         .error (.storeMiss
           ("digest " ++ digestStr odW.getTreeDigest ++ " not found in cache"))) :=
  (c5_directory_order_short_circuit ⟨[]⟩).2.1 odW [] _ rfl

end AC
